import Mathlib

/-!
Shallow embedding of the task-management REST API backend
(`src/server.js`: the task controller `taskController.js` section, together
with the route table of `taskRoutes.js`).

The controller operates over a document store of Task records.  We model the
store as a `List Task`, the authenticated caller as a `Nat` user id, request
timestamps (`Date.now()`) as `Nat` milliseconds, and JSON request
query/body values as `Option String` (`none` = the property is absent, i.e.
`undefined` in JS; `some s` = the property is present with string value `s`).

Fallible handlers become `Except ApiError _`; the error constructors carry
the HTTP status set by `res.status(...)` before each `throw`.
-/

namespace TaskApp

/-- HTTP-level errors thrown by the controller.  Each constructor corresponds
to a `res.status(n); throw new Error(msg)` pair in `taskController.js`. -/
inductive ApiError where
  | notFound (msg : String)
  | unauthorized (msg : String)
  | validation (msg : String)
deriving DecidableEq, Repr

/-- The HTTP status code attached by the controller right before throwing. -/
def ApiError.status : ApiError → Nat
  | notFound _ => 404
  | unauthorized _ => 401
  | validation _ => 400

/-- A persisted Task document.  `description`, `priority` and `dueDate` are
optional fields of the schema; `none` models an absent field.  `status` is a
free string at this level (the schema's enum validation lives in
`models/Task.js`, outside `src/`); `createdAt`/`updatedAt` are millisecond
timestamps. -/
structure Task where
  id : Nat
  user : Nat
  title : String
  description : Option String
  status : String
  priority : Option String
  dueDate : Option String
  createdAt : Nat
  updatedAt : Nat
deriving DecidableEq, Repr

/-- Model of `Task.findById`: the store resolves an id to at most one document. -/
def findById (store : List Task) (id : Nat) : Option Task :=
  store.find? (fun t => t.id = id)

/-! ## JS helpers: truthiness and `parseInt` -/

/-- JS truthiness of a possibly-absent string value: `undefined` and the
empty string are falsy, every other string is truthy. -/
def truthy (o : Option String) : Bool :=
  match o with
  | none => false
  | some s => !(s == "")

/-- Whitespace skipped by JS `parseInt`. -/
def isSpaceChar (c : Char) : Bool :=
  c == ' ' || c == '\t' || c == '\n' || c == '\r'

/-- Value of a digit character under the given radix, if any. -/
def digitVal (radix : Nat) (c : Char) : Option Nat :=
  let v :=
    if '0' ≤ c ∧ c ≤ '9' then some (c.toNat - '0'.toNat)
    else if 'a' ≤ c ∧ c ≤ 'z' then some (c.toNat - 'a'.toNat + 10)
    else if 'A' ≤ c ∧ c ≤ 'Z' then some (c.toNat - 'A'.toNat + 10)
    else none
  match v with
  | some n => if n < radix then some n else none
  | none => none

/-- Accumulate the maximal leading digit run. -/
def parseDigitsAux (radix : Nat) : List Char → Nat → Nat
  | [], acc => acc
  | c :: cs, acc =>
    match digitVal radix c with
    | some d => parseDigitsAux radix cs (acc * radix + d)
    | none => acc

/-- Parse the maximal leading digit run; `none` when there is no digit at
all (JS `NaN`). -/
def parseDigits (radix : Nat) (cs : List Char) : Option Nat :=
  match cs with
  | [] => none
  | c :: _ =>
    match digitVal radix c with
    | none => none
    | some _ => some (parseDigitsAux radix cs 0)

/-- JS `parseInt(s)` (radix auto-detection of `0x`, leading whitespace and
sign, maximal digit run); `none` models `NaN`. -/
def jsParseInt (s : String) : Option Int :=
  let cs := s.data.dropWhile isSpaceChar
  let signAndRest : Int × List Char :=
    match cs with
    | '-' :: rest => (-1, rest)
    | '+' :: rest => (1, rest)
    | _ => (1, cs)
  let radixAndRest : Nat × List Char :=
    match signAndRest.2 with
    | '0' :: 'x' :: rest => (16, rest)
    | '0' :: 'X' :: rest => (16, rest)
    | _ => (10, signAndRest.2)
  match parseDigits radixAndRest.1 radixAndRest.2 with
  | none => none
  | some n => some (signAndRest.1 * n)

/-- Model of `parseInt(q) || d`: absent parameter or `NaN` or a parse result of `0`
falls back to the default `d`. -/
def queryIntOr (q : Option String) (d : Int) : Int :=
  match q with
  | none => d
  | some s =>
    match jsParseInt s with
    | none => d
    | some n => if n = 0 then d else n

/-! ## Case-insensitive substring matching (the `$regex`/`$options: 'i'`
filter, for plain text search strings) -/

/-- ASCII lowercasing, as applied by a case-insensitive match. -/
def lowerChar (c : Char) : Char :=
  if 'A' ≤ c ∧ c ≤ 'Z' then Char.ofNat (c.toNat + 32) else c

/-- Character-list equality-up-to-case test for a leading match. -/
def startsWithChars : List Char → List Char → Bool
  | [], _ => true
  | _ :: _, [] => false
  | a :: as, b :: bs => a == b && startsWithChars as bs

/-- Tests whether `needle` occurs as a contiguous run inside `haystack`. -/
def containsChars (needle : List Char) : List Char → Bool
  | [] => startsWithChars needle []
  | c :: cs => startsWithChars needle (c :: cs) || containsChars needle cs

/-- Case-insensitive substring test: does `needle` occur in `haystack`? -/
def containsCI (haystack needle : String) : Bool :=
  containsChars (needle.data.map lowerChar) (haystack.data.map lowerChar)

/-! ## The list query: filter, sort, pagination (`getTasks`) -/

/-- The query parameters accepted by `GET /api/tasks`. -/
structure ListQuery where
  page : Option String := none
  limit : Option String := none
  search : Option String := none
  status : Option String := none
  priority : Option String := none
  sortBy : Option String := none
  sortOrder : Option String := none
deriving Repr

/-- The resolved filter specification built by `getTasks` lines 50–68:
always scoped to `user`, with optional search/status/priority predicates. -/
structure FilterSpec where
  user : Nat
  search : Option String
  status : Option String
  priority : Option String
deriving DecidableEq, Repr

/-- Lines 50–68 of `taskController.js`: start from `{ user: req.user._id }`,
add the `$or` title/description search when `req.query.search` is truthy,
and the status/priority equality predicates when the parameter is truthy
and not the sentinel `'all'`. -/
def buildFilter (uid : Nat) (q : ListQuery) : FilterSpec :=
  { user := uid
    search := if truthy q.search then q.search else none
    status :=
      match q.status with
      | some s => if s ≠ "" ∧ s ≠ "all" then some s else none
      | none => none
    priority :=
      match q.priority with
      | some p => if p ≠ "" ∧ p ≠ "all" then some p else none
      | none => none }

/-- Does a document satisfy the filter specification?  `user` is an equality
predicate; `search` matches case-insensitively against title OR description
(a document with no description field fails the description branch);
`status`/`priority` are equality predicates when present. -/
def matchesFilter (f : FilterSpec) (t : Task) : Bool :=
  (t.user == f.user)
  && (match f.search with
      | none => true
      | some s =>
        containsCI t.title s
        || (match t.description with
            | some d => containsCI d s
            | none => false))
  && (match f.status with
      | none => true
      | some s => t.status == s)
  && (match f.priority with
      | none => true
      | some p => t.priority == some p)

/-- A BSON sort key: absent field < numbers < strings. -/
inductive SortKey where
  | missing
  | num (n : Int)
  | str (s : String)
deriving DecidableEq, Repr

/-- BSON type rank used when keys are of different types. -/
def SortKey.rank : SortKey → Nat
  | .missing => 0
  | .num _ => 1
  | .str _ => 2

/-- Lexicographic char-list comparison. -/
def charListLE : List Char → List Char → Bool
  | [], _ => true
  | _ :: _, [] => false
  | a :: as, b :: bs => if a == b then charListLE as bs else decide (a < b)

/-- Total preorder on sort keys. -/
def SortKey.leB : SortKey → SortKey → Bool
  | .num x, .num y => x ≤ y
  | .str x, .str y => charListLE x.data y.data
  | a, b => a.rank ≤ b.rank

/-- The sort key a document exposes for a given field name; unknown field
names compare as absent. -/
def Task.sortKeyFor (t : Task) (field : String) : SortKey :=
  if field == "title" then .str t.title
  else if field == "status" then .str t.status
  else if field == "createdAt" then .num t.createdAt
  else if field == "updatedAt" then .num t.updatedAt
  else if field == "priority" then
    match t.priority with
    | some p => .str p
    | none => .missing
  else if field == "description" then
    match t.description with
    | some d => .str d
    | none => .missing
  else if field == "dueDate" then
    match t.dueDate with
    | some d => .str d
    | none => .missing
  else .missing

/-- Lines 70–76: default sort `{ createdAt: -1 }`; when `req.query.sortBy`
is truthy, sort by that field with order `asc ↦ 1`, anything else `↦ -1`. -/
def buildSort (q : ListQuery) : String × Int :=
  match q.sortBy with
  | some f =>
    if f ≠ "" then (f, if q.sortOrder == some "asc" then 1 else -1)
    else ("createdAt", -1)
  | none => ("createdAt", -1)

/-- Document order under a sort specification. -/
def taskLE (field : String) (ord : Int) (a b : Task) : Bool :=
  if ord = 1 then SortKey.leB (a.sortKeyFor field) (b.sortKeyFor field)
  else SortKey.leB (b.sortKeyFor field) (a.sortKeyFor field)

/-- Model of `Math.ceil(a / b)` for integer `a`, `b` (exact rational division then
ceiling), expressed with floor division: `⌈a/b⌉ = -⌊(-a)/b⌋`. -/
def jsCeilDiv (a b : Int) : Int := -(Int.fdiv (-a) b)

/-- The JSON body produced by `getTasks`. -/
structure ListResult where
  tasks : List Task
  currentPage : Int
  totalPages : Int
  totalTasks : Nat
deriving Repr

/-- Handler `getTasks` (lines 44–90): parse `page`/`limit` with defaults 1/10,
`skip = (page-1)*limit`, build the filter and sort, count all matching
documents, return the sorted page `skip..skip+limit` together with
`totalPages = Math.ceil(total / limit)`. -/
def getTasks (store : List Task) (uid : Nat) (q : ListQuery) : ListResult :=
  let page := queryIntOr q.page 1
  let limit := queryIntOr q.limit 10
  let skip := (page - 1) * limit
  let filter := buildFilter uid q
  let s := buildSort q
  let matched := store.filter (matchesFilter filter)
  let total := matched.length
  let sorted := matched.insertionSort (fun a b => taskLE s.1 s.2 a b = true)
  { tasks := (sorted.drop skip.toNat).take limit.toNat
    currentPage := page
    totalPages := jsCeilDiv total limit
    totalTasks := total }

/-! ## Single-task operations -/

/-- Handler `getTask` (lines 95–110): load by id, 404 if absent, 401 if the caller
is not the owner, else return the task. -/
def getTask (store : List Task) (uid : Nat) (id : Nat) : Except ApiError Task :=
  match findById store id with
  | none => .error (.notFound "Task not found")
  | some task =>
    if task.user ≠ uid then .error (.unauthorized "Not authorized to access this task")
    else .ok task

/-- The request body accepted by `POST /api/tasks`. -/
structure CreateBody where
  title : Option String := none
  description : Option String := none
  priority : Option String := none
  dueDate : Option String := none
deriving Repr

/-- Modelled from the spec: the Task schema (`models/Task.js`, not under
`src/`) defaults `status` to `pending` at creation and stamps
`createdAt`/`updatedAt`; the store assigns a fresh id.  `createTask` passes
no `status`, so a created document carries this default. -/
def newTaskDoc (uid : Nat) (title : String) (description priority dueDate : Option String)
    (newId now : Nat) : Task :=
  { id := newId, user := uid, title := title, description := description
    status := "pending", priority := priority, dueDate := dueDate
    createdAt := now, updatedAt := now }

/-- Handler `createTask` (lines 115–132): `400` when `!title` (absent or empty);
otherwise `Task.create({user, title, description, priority, dueDate})`
persists a new document and the handler answers `201` with it. -/
def createTask (store : List Task) (uid : Nat) (body : CreateBody) (newId now : Nat) :
    Except ApiError (List Task × Task) :=
  if !truthy body.title then .error (.validation "Please add a title")
  else
    let t := newTaskDoc uid (body.title.getD "") body.description body.priority body.dueDate
      newId now
    .ok (store ++ [t], t)

/-- The HTTP status `createTask` answers with: the thrown error's status, or
`res.status(201)` on success. -/
def createTaskStatus (store : List Task) (uid : Nat) (body : CreateBody) (newId now : Nat) :
    Nat :=
  match createTask store uid body newId now with
  | .error e => e.status
  | .ok _ => 201

/-- The state of the store after a create request: the handler throws before
`Task.create` when validation fails, so the store is only written on the
success path. -/
def storeAfterCreate (store : List Task) (uid : Nat) (body : CreateBody) (newId now : Nat) :
    List Task :=
  match createTask store uid body newId now with
  | .error _ => store
  | .ok r => r.1

/-- The request body accepted by `PUT /api/tasks/:id`.  A body may carry a
`user` property, but the controller destructures only the five fields below
out of `req.body`, so `user` is never read. -/
structure UpdateBody where
  title : Option String := none
  description : Option String := none
  status : Option String := none
  priority : Option String := none
  dueDate : Option String := none
  user : Option Nat := none
deriving Repr

/-- The update document of lines 155–162: `title`/`status`/`priority` use
`x || task.x` (falsy keeps the previous value); `description`/`dueDate` use
`x !== undefined ? x : task.x` (only absence keeps the previous value);
`updatedAt: Date.now()`.  Fields not in the update document (`user`, `id`,
`createdAt`) are untouched. -/
def applyUpdate (task : Task) (b : UpdateBody) (now : Nat) : Task :=
  { task with
    title :=
      match b.title with
      | some t => if t = "" then task.title else t
      | none => task.title
    description :=
      match b.description with
      | some d => some d
      | none => task.description
    status :=
      match b.status with
      | some s => if s = "" then task.status else s
      | none => task.status
    priority :=
      match b.priority with
      | some p => if p = "" then task.priority else p
      | none => task.priority
    dueDate :=
      match b.dueDate with
      | some d => some d
      | none => task.dueDate
    updatedAt := now }

/-- Handler `updateTask` (lines 137–167): load by id, 404 if absent, 401 if the
caller is not the owner, else `findByIdAndUpdate` with the update document
and return the updated task. -/
def updateTask (store : List Task) (uid : Nat) (id : Nat) (b : UpdateBody) (now : Nat) :
    Except ApiError (List Task × Task) :=
  match findById store id with
  | none => .error (.notFound "Task not found")
  | some task =>
    if task.user ≠ uid then .error (.unauthorized "Not authorized to update this task")
    else
      let updated := applyUpdate task b now
      .ok (store.map (fun t => if t.id = id then updated else t), updated)

/-- Handler `deleteTask` (lines 172–189): load by id, 404 if absent, 401 if the
caller is not the owner, else `findByIdAndDelete` and answer
`{ message: 'Task removed' }`. -/
def deleteTask (store : List Task) (uid : Nat) (id : Nat) :
    Except ApiError (List Task × String) :=
  match findById store id with
  | none => .error (.notFound "Task not found")
  | some task =>
    if task.user ≠ uid then .error (.unauthorized "Not authorized to delete this task")
    else .ok (store.filter (fun t => !(t.id == id)), "Task removed")

/-- The mutation of lines 208–209:
`status = status === 'pending' ? 'completed' : 'pending'` and
`updatedAt = Date.now()`. -/
def toggledDoc (task : Task) (now : Nat) : Task :=
  { task with
    status := if task.status = "pending" then "completed" else "pending"
    updatedAt := now }

/-- Handler `toggleTaskStatus` (lines 194–214): load by id, 404 if absent, 401 if
the caller is not the owner, else flip the status, stamp `updatedAt` and
save. -/
def toggleTaskStatus (store : List Task) (uid : Nat) (id : Nat) (now : Nat) :
    Except ApiError (List Task × Task) :=
  match findById store id with
  | none => .error (.notFound "Task not found")
  | some task =>
    if task.user ≠ uid then .error (.unauthorized "Not authorized to update this task")
    else
      .ok (store.map (fun t => if t.id = id then toggledDoc task now else t),
        toggledDoc task now)

/-! ## Statistics (`getTaskStats`) -/

/-- The JSON body produced by `getTaskStats`. -/
structure Stats where
  total : Nat
  pending : Nat
  completed : Nat
deriving DecidableEq, Repr

/-- The `$match`/`$group` aggregation of lines 220–228: group the caller's
documents by `status`, one `(status, count)` bucket per distinct status. -/
def statusGroups (store : List Task) (uid : Nat) : List (String × Nat) :=
  let userTasks := store.filter (fun t => t.user == uid)
  (userTasks.map Task.status).dedup.map
    (fun s => (s, userTasks.countP (fun t => t.status == s)))

/-- Handler `getTaskStats` (lines 219–237): total = `countDocuments({user})`;
pending/completed are looked up in the aggregation buckets with
`stats.find(...)?.count || 0`. -/
def getTaskStats (store : List Task) (uid : Nat) : Stats :=
  let groups := statusGroups store uid
  { total := (store.filter (fun t => t.user == uid)).length
    pending :=
      match groups.find? (fun g => g.1 == "pending") with
      | some g => g.2
      | none => 0
    completed :=
      match groups.find? (fun g => g.1 == "completed") with
      | some g => g.2
      | none => 0 }

/-! ## Sample data used to instantiate the theorems -/

/-- A task owned by user 1. -/
def sampleTask1 : Task :=
  { id := 1, user := 1, title := "Buy milk", description := some "2 liters",
    status := "pending", priority := some "high", dueDate := none,
    createdAt := 100, updatedAt := 100 }

/-- A task owned by user 2. -/
def sampleTask2 : Task :=
  { id := 2, user := 2, title := "Walk dog", description := none,
    status := "completed", priority := none, dueDate := some "2026-01-01",
    createdAt := 200, updatedAt := 200 }

/-! ## Helper lemmas -/

/-- For a positive divisor, `jsCeilDiv` is at least the exact quotient:
`a ≤ ⌈a/b⌉ * b`. -/
theorem jsCeilDiv_mul_ge (a b : Int) (hb : 0 < b) : a ≤ jsCeilDiv a b * b := by
  unfold jsCeilDiv
  rw [Int.fdiv_eq_ediv _ hb.le, neg_mul]
  have h := Int.ediv_mul_le (-a) (ne_of_gt hb)
  linarith

/-- For a positive divisor, `jsCeilDiv` is the least such bound:
`(⌈a/b⌉ - 1) * b < a`. -/
theorem jsCeilDiv_pred_mul_lt (a b : Int) (hb : 0 < b) : (jsCeilDiv a b - 1) * b < a := by
  unfold jsCeilDiv
  rw [Int.fdiv_eq_ediv _ hb.le]
  have h := Int.lt_ediv_add_one_mul_self (-a) hb
  have heq : (-(-a / b) - 1) * b = -((-a / b + 1) * b) := by ring
  rw [heq]
  linarith

/-- Ceiling of zero: `Math.ceil(0 / b) = 0`. -/
theorem jsCeilDiv_zero (b : Int) : jsCeilDiv 0 b = 0 := by
  unfold jsCeilDiv
  rw [neg_zero, Int.zero_fdiv, neg_zero]

/-- When `0 < a < b`, `Math.ceil(a / b) = 1`. -/
theorem jsCeilDiv_eq_one (a b : Int) (hb : 0 < b) (h0 : 0 < a) (hab : a < b) :
    jsCeilDiv a b = 1 := by
  unfold jsCeilDiv
  rw [Int.fdiv_eq_ediv _ hb.le]
  have h : -a / b = -1 ∧ -a % b = b - a := by
    rw [Int.ediv_emod_unique hb]
    refine ⟨by ring, by omega, by omega⟩
  rw [h.1]
  rfl

/-- The task found by `findById` carries the requested id. -/
theorem findById_id {store : List Task} {id : Nat} {task : Task}
    (h : findById store id = some task) : task.id = id := by
  have := List.find?_some h
  simpa using this

/-- The task found by `findById` is in the store. -/
theorem findById_mem {store : List Task} {id : Nat} {task : Task}
    (h : findById store id = some task) : task ∈ store :=
  List.mem_of_find?_eq_some h

/-- Replacing the document with a given id makes a later `findById` for that
id resolve to the replacement, provided the id resolved before. -/
theorem findById_map_replace (store : List Task) (id : Nat) (u : Task) (hu : u.id = id)
    (task : Task) (h : findById store id = some task) :
    findById (store.map (fun t => if t.id = id then u else t)) id = some u := by
  induction store with
  | nil => simp [findById] at h
  | cons a as ih =>
    by_cases ha : a.id = id
    · simp [findById, ha, hu]
    · simp only [findById, List.map_cons] at h ⊢
      rw [if_neg ha]
      rw [List.find?_cons_of_neg _ (by simpa using ha)] at h ⊢
      exact ih h

/-- Looking a key up among the buckets `(s, cnt s)` built over a list of
keys: found iff the key occurs, and then the bucket holds its count. -/
theorem find_bucket (cnt : String → Nat) (s0 : String) (l : List String) :
    (match (l.map (fun s => (s, cnt s))).find? (fun g => g.1 == s0) with
      | some g => g.2
      | none => 0) = if s0 ∈ l then cnt s0 else 0 := by
  induction l with
  | nil => simp
  | cons a as ih =>
    by_cases ha : a = s0
    · subst ha
      simp
    · rw [List.map_cons, List.find?_cons_of_neg _ (by simpa using ha)]
      rw [ih]
      simp [ha, Ne.symm ha]

/-- The bucket lookup of `getTaskStats` equals a direct count of the
caller's tasks with the given status. -/
theorem statusGroups_lookup (store : List Task) (uid : Nat) (s0 : String) :
    (match (statusGroups store uid).find? (fun g => g.1 == s0) with
      | some g => g.2
      | none => 0)
    = (store.filter (fun t => t.user == uid)).countP (fun t => t.status == s0) := by
  unfold statusGroups
  rw [find_bucket]
  by_cases h : s0 ∈ ((store.filter (fun t => t.user == uid)).map Task.status).dedup
  · rw [if_pos h]
  · rw [if_neg h]
    symm
    rw [List.countP_eq_zero]
    intro t ht hst
    exact h (List.mem_dedup.mpr (List.mem_map.mpr ⟨t, ht, by simpa using hst⟩))

/-- The fallback `parseInt(q) || d` never yields 0 when the default is non-zero. -/
theorem queryIntOr_ne_zero (o : Option String) (d : Int) (hd : d ≠ 0) :
    queryIntOr o d ≠ 0 := by
  unfold queryIntOr
  cases o with
  | none => exact hd
  | some s =>
    show ((match jsParseInt s with
      | none => d
      | some n => if n = 0 then d else n : Int)) ≠ 0
    cases jsParseInt s with
    | none => exact hd
    | some n =>
      show (if n = 0 then d else n) ≠ 0
      by_cases hn : n = 0
      · rw [if_pos hn]
        exact hd
      · rw [if_neg hn]
        exact hn

/-- A list whose members all carry one of two distinct statuses splits its
length into the two status counts. -/
theorem length_countP_two (l : List Task)
    (h : ∀ t ∈ l, t.status = "pending" ∨ t.status = "completed") :
    l.length = l.countP (fun t => t.status == "pending")
      + l.countP (fun t => t.status == "completed") := by
  induction l with
  | nil => simp
  | cons a as ih =>
    have ha := h a (List.mem_cons_self a as)
    have ih' := ih (fun t ht => h t (List.mem_cons_of_mem a ht))
    rcases ha with ha | ha <;>
      simp [List.countP_cons, ha, ih'] <;> omega

/-! ## Claims -/

/-- C1: Ownership scoping — for every task T owned by user U and every
authenticated caller V ≠ U, listing tasks as V never returns T (the list
filter always includes `user = caller`), and any access to T by V through
the single-task get operation is rejected with an error rather than
silently filtered. -/
theorem ownership_scoping :
    (∀ (store : List Task) (uid : Nat) (q : ListQuery),
      ∀ t ∈ (getTasks store uid q).tasks, t.user = uid) ∧
    (∀ (store : List Task) (uid id : Nat) (task : Task),
      findById store id = some task → task.user ≠ uid →
      getTask store uid id
        = .error (.unauthorized "Not authorized to access this task")) := by
  constructor
  · intro store uid q t ht
    simp only [getTasks] at ht
    have h1 := List.mem_of_mem_drop (List.mem_of_mem_take ht)
    have h2 : t ∈ store.filter (matchesFilter (buildFilter uid q)) :=
      (List.perm_insertionSort _ _).subset h1
    have h3 := (List.mem_filter.mp h2).2
    unfold matchesFilter at h3
    simp only [Bool.and_eq_true, beq_iff_eq] at h3
    exact h3.1.1.1
  · intro store uid id task h hne
    unfold getTask
    rw [h]
    simp [hne]

/-- C1 witness: with a two-task store, listing as user 1 yields only tasks
owned by user 1, and user 1's get of user 2's task is a 401 error. -/
theorem ownership_scoping_witness :
    sampleTask1.user = 1 ∧
    getTask [sampleTask1, sampleTask2] 1 2
      = .error (.unauthorized "Not authorized to access this task") := by
  constructor
  · exact ownership_scoping.1 [sampleTask1, sampleTask2] 1 {} sampleTask1
      (by rw [show (getTasks [sampleTask1, sampleTask2] 1 {}).tasks = [sampleTask1] from rfl]
          exact List.mem_singleton_self sampleTask1)
  · exact ownership_scoping.2 [sampleTask1, sampleTask2] 1 2 sampleTask2 rfl (by decide)

/-- C2: for get, update, delete and toggle: a missing id fails with
NotFound (404) regardless of the caller — so a non-owner probing a
non-existent id gets NotFound, not Forbidden — and an existing task with a
different owner fails with the ownership error, reported as 401. -/
theorem existence_before_ownership :
    (∀ (store : List Task) (uid id : Nat), findById store id = none →
      getTask store uid id = .error (.notFound "Task not found") ∧
      (∀ b now, updateTask store uid id b now = .error (.notFound "Task not found")) ∧
      deleteTask store uid id = .error (.notFound "Task not found") ∧
      (∀ now, toggleTaskStatus store uid id now = .error (.notFound "Task not found"))) ∧
    (∀ (store : List Task) (uid id : Nat) (task : Task),
      findById store id = some task → task.user ≠ uid →
      getTask store uid id
        = .error (.unauthorized "Not authorized to access this task") ∧
      (∀ b now, updateTask store uid id b now
        = .error (.unauthorized "Not authorized to update this task")) ∧
      deleteTask store uid id
        = .error (.unauthorized "Not authorized to delete this task") ∧
      (∀ now, toggleTaskStatus store uid id now
        = .error (.unauthorized "Not authorized to update this task"))) ∧
    (∀ m, (ApiError.notFound m).status = 404) ∧
    (∀ m, (ApiError.unauthorized m).status = 401) := by
  refine ⟨?_, ?_, fun _ => rfl, fun _ => rfl⟩
  · intro store uid id h
    refine ⟨?_, fun b now => ?_, ?_, fun now => ?_⟩ <;>
      simp [getTask, updateTask, deleteTask, toggleTaskStatus, h]
  · intro store uid id task h hne
    refine ⟨?_, fun b now => ?_, ?_, fun now => ?_⟩ <;>
      simp [getTask, updateTask, deleteTask, toggleTaskStatus, h, hne]

/-- C2 witness: probing a non-existent id as a non-owner answers 404; an
existing foreign task answers the 401 ownership error. -/
theorem existence_before_ownership_witness :
    getTask [sampleTask1, sampleTask2] 1 99 = .error (.notFound "Task not found") ∧
    deleteTask [sampleTask1, sampleTask2] 1 2
      = .error (.unauthorized "Not authorized to delete this task") ∧
    (ApiError.notFound "Task not found").status = 404 ∧
    (ApiError.unauthorized "Not authorized to delete this task").status = 401 :=
  ⟨(existence_before_ownership.1 [sampleTask1, sampleTask2] 1 99 rfl).1,
   (existence_before_ownership.2.1 [sampleTask1, sampleTask2] 1 2 sampleTask2 rfl
     (by decide)).2.2.1,
   existence_before_ownership.2.2.1 "Task not found",
   existence_before_ownership.2.2.2 "Not authorized to delete this task"⟩

/-- C3: per-field partial-update semantics — falsy supplied values keep the
previous `title`/`status`/`priority`; only absence keeps the previous
`description`/`dueDate` (an explicitly supplied empty value is applied);
`updatedAt` is refreshed; an empty body changes nothing but `updatedAt`;
and `updateTask` applies exactly this update document on the owner path. -/
theorem update_field_semantics :
    (∀ (task : Task) (b : UpdateBody) (now : Nat),
      ((b.title = none ∨ b.title = some "") → (applyUpdate task b now).title = task.title) ∧
      (∀ s, b.title = some s → s ≠ "" → (applyUpdate task b now).title = s) ∧
      ((b.status = none ∨ b.status = some "") → (applyUpdate task b now).status = task.status) ∧
      (∀ s, b.status = some s → s ≠ "" → (applyUpdate task b now).status = s) ∧
      ((b.priority = none ∨ b.priority = some "") →
        (applyUpdate task b now).priority = task.priority) ∧
      (∀ s, b.priority = some s → s ≠ "" → (applyUpdate task b now).priority = some s) ∧
      (b.description = none → (applyUpdate task b now).description = task.description) ∧
      (∀ s, b.description = some s → (applyUpdate task b now).description = some s) ∧
      (b.dueDate = none → (applyUpdate task b now).dueDate = task.dueDate) ∧
      (∀ s, b.dueDate = some s → (applyUpdate task b now).dueDate = some s) ∧
      (applyUpdate task b now).updatedAt = now) ∧
    (∀ (task : Task) (now : Nat),
      applyUpdate task {} now = { task with updatedAt := now }) ∧
    (∀ (store : List Task) (uid id : Nat) (task : Task) (b : UpdateBody) (now : Nat),
      findById store id = some task → task.user = uid →
      updateTask store uid id b now =
        .ok (store.map (fun t => if t.id = id then applyUpdate task b now else t),
          applyUpdate task b now)) := by
  refine ⟨?_, ?_, ?_⟩
  · intro task b now
    refine ⟨?_, ?_, ?_, ?_, ?_, ?_, ?_, ?_, ?_, ?_, ?_⟩ <;>
      first
        | (rintro (h | h) <;> simp [applyUpdate, h])
        | (intro s hs hne; simp [applyUpdate, hs, hne])
        | (intro s hs; simp [applyUpdate, hs])
        | (intro h; simp [applyUpdate, h])
        | simp [applyUpdate]
  · intro task now
    simp [applyUpdate]
  · intro store uid id task b now hfind howner
    unfold updateTask
    rw [hfind]
    simp [howner]

/-- C3 witness: on a concrete task, an empty-string title is kept, an
empty-string description is applied, an empty body only bumps
`updatedAt`, and the owner update path rewrites the store as stated. -/
theorem update_field_semantics_witness :
    (applyUpdate sampleTask1 { title := some "" } 500).title = sampleTask1.title ∧
    (applyUpdate sampleTask1 { description := some "" } 500).description = some "" ∧
    applyUpdate sampleTask1 {} 500 = { sampleTask1 with updatedAt := 500 } ∧
    updateTask [sampleTask1] 1 1 { description := some "" } 500 =
      .ok ([sampleTask1].map
        (fun t => if t.id = 1 then applyUpdate sampleTask1 { description := some "" } 500 else t),
        applyUpdate sampleTask1 { description := some "" } 500) :=
  ⟨(update_field_semantics.1 sampleTask1 { title := some "" } 500).1 (Or.inr rfl),
   (update_field_semantics.1 sampleTask1 { description := some "" } 500).2.2.2.2.2.2.2.1
     "" rfl,
   update_field_semantics.2.1 sampleTask1 500,
   update_field_semantics.2.2 [sampleTask1] 1 1 sampleTask1 { description := some "" } 500
     rfl rfl⟩

/-- C4: create fails with ValidationError (400) whenever the title is
absent or empty and then persists nothing; otherwise it persists a new
task with owner = caller, status = pending, timestamps set, and answers
201 with the created task. -/
theorem create_validation :
    (∀ (store : List Task) (uid : Nat) (body : CreateBody) (newId now : Nat),
      (body.title = none ∨ body.title = some "") →
      createTask store uid body newId now = .error (.validation "Please add a title") ∧
      createTaskStatus store uid body newId now = 400 ∧
      storeAfterCreate store uid body newId now = store) ∧
    (∀ (store : List Task) (uid : Nat) (body : CreateBody) (newId now : Nat) (s : String),
      body.title = some s → s ≠ "" →
      createTask store uid body newId now =
        .ok (store ++ [newTaskDoc uid s body.description body.priority body.dueDate newId now],
          newTaskDoc uid s body.description body.priority body.dueDate newId now) ∧
      createTaskStatus store uid body newId now = 201 ∧
      (newTaskDoc uid s body.description body.priority body.dueDate newId now).user = uid ∧
      (newTaskDoc uid s body.description body.priority body.dueDate newId now).status
        = "pending" ∧
      (newTaskDoc uid s body.description body.priority body.dueDate newId now).createdAt
        = now ∧
      (newTaskDoc uid s body.description body.priority body.dueDate newId now).updatedAt
        = now) := by
  constructor
  · intro store uid body newId now h
    have ht : truthy body.title = false := by
      rcases h with h | h <;> simp [truthy, h]
    refine ⟨?_, ?_, ?_⟩ <;>
      simp [createTask, createTaskStatus, storeAfterCreate, ApiError.status, ht]
  · intro store uid body newId now s hs hne
    refine ⟨?_, ?_, rfl, rfl, rfl, rfl⟩ <;>
      simp [createTask, createTaskStatus, truthy, hs, hne]

/-- C4 witness: an absent title answers 400 and leaves the store unchanged;
a concrete valid create answers 201 and appends the new pending task. -/
theorem create_validation_witness :
    createTask [sampleTask1] 1 {} 7 300 = .error (.validation "Please add a title") ∧
    storeAfterCreate [sampleTask1] 1 {} 7 300 = [sampleTask1] ∧
    createTask [sampleTask1] 1 { title := some "Pay rent" } 7 300 =
      .ok ([sampleTask1] ++ [newTaskDoc 1 "Pay rent" none none none 7 300],
        newTaskDoc 1 "Pay rent" none none none 7 300) ∧
    (newTaskDoc 1 "Pay rent" none none none 7 300).status = "pending" :=
  ⟨(create_validation.1 [sampleTask1] 1 {} 7 300 (Or.inl rfl)).1,
   (create_validation.1 [sampleTask1] 1 {} 7 300 (Or.inl rfl)).2.2,
   (create_validation.2 [sampleTask1] 1 { title := some "Pay rent" } 7 300 "Pay rent"
     rfl (by decide)).1,
   (create_validation.2 [sampleTask1] 1 { title := some "Pay rent" } 7 300 "Pay rent"
     rfl (by decide)).2.2.2.1⟩

/-- C5: toggle flips a two-valued status and refreshes `updatedAt`; a
second toggle restores the original status; `updatedAt` strictly increases
across the two toggles when the clock does. -/
theorem toggle_involution :
    ∀ (store : List Task) (uid id : Nat) (task : Task) (now₁ now₂ : Nat),
      findById store id = some task → task.user = uid →
      (task.status = "pending" ∨ task.status = "completed") →
      task.updatedAt < now₁ → now₁ < now₂ →
      ∃ (store₁ : List Task) (u₁ : Task) (store₂ : List Task) (u₂ : Task),
        toggleTaskStatus store uid id now₁ = .ok (store₁, u₁) ∧
        toggleTaskStatus store₁ uid id now₂ = .ok (store₂, u₂) ∧
        u₁.status = (if task.status = "pending" then "completed" else "pending") ∧
        (u₁.status = "pending" ∨ u₁.status = "completed") ∧
        u₁.status ≠ task.status ∧
        u₂.status = task.status ∧
        task.updatedAt < u₁.updatedAt ∧ u₁.updatedAt < u₂.updatedAt := by
  intro store uid id task now₁ now₂ hfind howner henum h1 h2
  have hid : task.id = id := findById_id hfind
  have hfind₂ : findById (store.map (fun t => if t.id = id then toggledDoc task now₁ else t)) id
      = some (toggledDoc task now₁) :=
    findById_map_replace store id _ (by simp [toggledDoc, hid]) task hfind
  refine ⟨store.map (fun t => if t.id = id then toggledDoc task now₁ else t),
    toggledDoc task now₁,
    (store.map (fun t => if t.id = id then toggledDoc task now₁ else t)).map
      (fun t => if t.id = id then toggledDoc (toggledDoc task now₁) now₂ else t),
    toggledDoc (toggledDoc task now₁) now₂, ?_, ?_, ?_, ?_, ?_, ?_, ?_, ?_⟩
  · unfold toggleTaskStatus
    rw [hfind]
    simp [howner]
  · unfold toggleTaskStatus
    rw [hfind₂]
    simp [toggledDoc, howner]
  · rfl
  · rcases henum with h | h <;> simp [toggledDoc, h]
  · rcases henum with h | h <;> simp [toggledDoc, h]
  · rcases henum with h | h <;> simp [toggledDoc, h]
  · exact h1
  · exact h2

/-- C5 witness: two toggles of a concrete pending task at strictly later
timestamps. -/
theorem toggle_involution_witness :
    ∃ (store₁ : List Task) (u₁ : Task) (store₂ : List Task) (u₂ : Task),
      toggleTaskStatus [sampleTask1] 1 1 150 = .ok (store₁, u₁) ∧
      toggleTaskStatus store₁ 1 1 160 = .ok (store₂, u₂) ∧
      u₁.status = (if sampleTask1.status = "pending" then "completed" else "pending") ∧
      (u₁.status = "pending" ∨ u₁.status = "completed") ∧
      u₁.status ≠ sampleTask1.status ∧
      u₂.status = sampleTask1.status ∧
      sampleTask1.updatedAt < u₁.updatedAt ∧ u₁.updatedAt < u₂.updatedAt :=
  toggle_involution [sampleTask1] 1 1 sampleTask1 150 160 rfl rfl (Or.inl rfl)
    (by decide) (by decide)

/-- C6: the list result carries the total matching count, its `totalPages`
is exactly `Math.ceil(total/limit)` (bracketed by the two defining ceiling
inequalities for positive limits), `totalPages` is 1 when
`0 < total < limit` and 0 when `total = 0`, and a page past the last one
yields an empty page. -/
theorem pagination_contract :
    ∀ (store : List Task) (uid : Nat) (q : ListQuery),
      (getTasks store uid q).totalTasks
        = (store.filter (matchesFilter (buildFilter uid q))).length ∧
      (getTasks store uid q).totalPages
        = jsCeilDiv ((getTasks store uid q).totalTasks) (queryIntOr q.limit 10) ∧
      (0 < queryIntOr q.limit 10 →
        ((getTasks store uid q).totalPages - 1) * queryIntOr q.limit 10
            < ((getTasks store uid q).totalTasks : Int) ∧
        ((getTasks store uid q).totalTasks : Int)
            ≤ (getTasks store uid q).totalPages * queryIntOr q.limit 10) ∧
      ((getTasks store uid q).totalTasks = 0 → (getTasks store uid q).totalPages = 0) ∧
      (0 < queryIntOr q.limit 10 → 0 < (getTasks store uid q).totalTasks →
        ((getTasks store uid q).totalTasks : Int) < queryIntOr q.limit 10 →
        (getTasks store uid q).totalPages = 1) ∧
      (0 < queryIntOr q.limit 10 →
        (getTasks store uid q).totalPages < queryIntOr q.page 1 →
        (getTasks store uid q).tasks = []) := by
  intro store uid q
  have hpages : (getTasks store uid q).totalPages
      = jsCeilDiv ((getTasks store uid q).totalTasks) (queryIntOr q.limit 10) := rfl
  refine ⟨rfl, hpages, ?_, ?_, ?_, ?_⟩
  · intro hL
    rw [hpages]
    exact ⟨jsCeilDiv_pred_mul_lt _ _ hL, jsCeilDiv_mul_ge _ _ hL⟩
  · intro h0
    rw [hpages, h0]
    simpa using jsCeilDiv_zero (queryIntOr q.limit 10)
  · intro hL h0 hlt
    rw [hpages]
    exact jsCeilDiv_eq_one _ _ hL (by exact_mod_cast h0) hlt
  · intro hL hpage
    rw [hpages] at hpage
    have hceil := jsCeilDiv_mul_ge ((getTasks store uid q).totalTasks : Int)
      (queryIntOr q.limit 10) hL
    have hstep : jsCeilDiv ((getTasks store uid q).totalTasks : Int) (queryIntOr q.limit 10)
        ≤ queryIntOr q.page 1 - 1 := by omega
    have hmul := mul_le_mul_of_nonneg_right hstep hL.le
    have hskip : ((getTasks store uid q).totalTasks : Int)
        ≤ (queryIntOr q.page 1 - 1) * queryIntOr q.limit 10 := le_trans hceil hmul
    have hlen : ((store.filter (matchesFilter (buildFilter uid q))).insertionSort
        (fun a b => taskLE (buildSort q).1 (buildSort q).2 a b = true)).length
        = (getTasks store uid q).totalTasks := List.length_insertionSort _ _
    show (((store.filter (matchesFilter (buildFilter uid q))).insertionSort
        (fun a b => taskLE (buildSort q).1 (buildSort q).2 a b = true)).drop
          ((queryIntOr q.page 1 - 1) * queryIntOr q.limit 10).toNat).take
        (queryIntOr q.limit 10).toNat = []
    rw [List.drop_eq_nil_of_le (by omega), List.take_nil]

/-- C6 witness: a one-matching-task store with limit 5 has one page, and
requesting page 3 yields an empty page. -/
theorem pagination_contract_witness :
    (getTasks [sampleTask1, sampleTask2] 1 { page := some "3", limit := some "5" }).totalPages
      = 1 ∧
    (getTasks [sampleTask1, sampleTask2] 1 { page := some "3", limit := some "5" }).tasks
      = [] :=
  ⟨(pagination_contract [sampleTask1, sampleTask2] 1
      { page := some "3", limit := some "5" }).2.2.2.2.1 (by decide) (by decide) (by decide),
   (pagination_contract [sampleTask1, sampleTask2] 1
      { page := some "3", limit := some "5" }).2.2.2.2.2 (by decide) (by decide)⟩

/-- C7: stats are computed over the caller's tasks only — total count plus
per-status counts with 0 for an absent status — and total equals
pending + completed whenever every task of the caller carries one of the
two enum values. -/
theorem stats_consistency :
    ∀ (store : List Task) (uid : Nat),
      (getTaskStats store uid).total = (store.filter (fun t => t.user == uid)).length ∧
      (getTaskStats store uid).pending
        = (store.filter (fun t => t.user == uid)).countP (fun t => t.status == "pending") ∧
      (getTaskStats store uid).completed
        = (store.filter (fun t => t.user == uid)).countP (fun t => t.status == "completed") ∧
      ((∀ t ∈ store.filter (fun t => t.user == uid), t.status ≠ "pending") →
        (getTaskStats store uid).pending = 0) ∧
      ((∀ t ∈ store.filter (fun t => t.user == uid),
          t.status = "pending" ∨ t.status = "completed") →
        (getTaskStats store uid).total
          = (getTaskStats store uid).pending + (getTaskStats store uid).completed) := by
  intro store uid
  have hp : (getTaskStats store uid).pending
      = (store.filter (fun t => t.user == uid)).countP (fun t => t.status == "pending") :=
    statusGroups_lookup store uid "pending"
  have hc : (getTaskStats store uid).completed
      = (store.filter (fun t => t.user == uid)).countP (fun t => t.status == "completed") :=
    statusGroups_lookup store uid "completed"
  refine ⟨rfl, hp, hc, ?_, ?_⟩
  · intro h
    rw [hp, List.countP_eq_zero]
    intro t ht
    simpa using h t ht
  · intro h
    rw [hp, hc]
    exact length_countP_two _ h

/-- C7 witness: with one pending task of user 1 and one completed task of
user 2, user 1's stats are total 1, pending 1, completed 0, and the
consistency equation holds. -/
theorem stats_consistency_witness :
    (getTaskStats [sampleTask1, sampleTask2] 1).pending
      = (List.filter (fun t => t.user == 1) [sampleTask1, sampleTask2]).countP
          (fun t => t.status == "pending") ∧
    (getTaskStats [sampleTask1, sampleTask2] 1).total
      = (getTaskStats [sampleTask1, sampleTask2] 1).pending
        + (getTaskStats [sampleTask1, sampleTask2] 1).completed :=
  ⟨(stats_consistency [sampleTask1, sampleTask2] 1).2.1,
   (stats_consistency [sampleTask1, sampleTask2] 1).2.2.2.2 (by decide)⟩

/-- C8: the status/priority filters are included exactly when the query
parameter is present, non-empty and not the sentinel `"all"`; otherwise
the filter is insensitive to the task's status/priority. -/
theorem filter_sentinel :
    ∀ (uid : Nat) (q : ListQuery),
      (∀ s, (buildFilter uid q).status = some s ↔
        q.status = some s ∧ s ≠ "" ∧ s ≠ "all") ∧
      (∀ p, (buildFilter uid q).priority = some p ↔
        q.priority = some p ∧ p ≠ "" ∧ p ≠ "all") ∧
      ((q.status = none ∨ q.status = some "" ∨ q.status = some "all") →
        ∀ (t : Task) (s' : String),
          matchesFilter (buildFilter uid q) { t with status := s' }
            = matchesFilter (buildFilter uid q) t) ∧
      ((q.priority = none ∨ q.priority = some "" ∨ q.priority = some "all") →
        ∀ (t : Task) (p' : Option String),
          matchesFilter (buildFilter uid q) { t with priority := p' }
            = matchesFilter (buildFilter uid q) t) := by
  intro uid q
  refine ⟨?_, ?_, ?_, ?_⟩
  · intro s
    have hdef : (buildFilter uid q).status
        = (match q.status with
           | some s' => if s' ≠ "" ∧ s' ≠ "all" then some s' else none
           | none => none) := rfl
    rw [hdef]
    cases hq : q.status with
    | none => simp [hq]
    | some s' =>
      show (if s' ≠ "" ∧ s' ≠ "all" then some s' else none) = some s
        ↔ some s' = some s ∧ s ≠ "" ∧ s ≠ "all"
      by_cases h1 : s' ≠ "" ∧ s' ≠ "all"
      · rw [if_pos h1]
        constructor
        · intro h
          obtain rfl := Option.some.inj h
          exact ⟨rfl, h1⟩
        · rintro ⟨h, _⟩
          exact h
      · rw [if_neg h1]
        constructor
        · intro h
          exact absurd h (by simp)
        · rintro ⟨h, h2, h3⟩
          obtain rfl := Option.some.inj h
          exact absurd ⟨h2, h3⟩ h1
  · intro p
    have hdef : (buildFilter uid q).priority
        = (match q.priority with
           | some p'' => if p'' ≠ "" ∧ p'' ≠ "all" then some p'' else none
           | none => none) := rfl
    rw [hdef]
    cases hq : q.priority with
    | none => simp [hq]
    | some p'' =>
      show (if p'' ≠ "" ∧ p'' ≠ "all" then some p'' else none) = some p
        ↔ some p'' = some p ∧ p ≠ "" ∧ p ≠ "all"
      by_cases h1 : p'' ≠ "" ∧ p'' ≠ "all"
      · rw [if_pos h1]
        constructor
        · intro h
          obtain rfl := Option.some.inj h
          exact ⟨rfl, h1⟩
        · rintro ⟨h, _⟩
          exact h
      · rw [if_neg h1]
        constructor
        · intro h
          exact absurd h (by simp)
        · rintro ⟨h, h2, h3⟩
          obtain rfl := Option.some.inj h
          exact absurd ⟨h2, h3⟩ h1
  · rintro (h | h | h) <;> intro t s' <;> simp [matchesFilter, buildFilter, h]
  · rintro (h | h | h) <;> intro t p' <;> simp [matchesFilter, buildFilter, h]

/-- C8 witness: `status=pending` produces the filter predicate;
`status=all` matches a task regardless of its status. -/
theorem filter_sentinel_witness :
    (buildFilter 1 { status := some "pending" }).status = some "pending" ∧
    matchesFilter (buildFilter 1 { status := some "all" })
        { sampleTask1 with status := "completed" }
      = matchesFilter (buildFilter 1 { status := some "all" }) sampleTask1 :=
  ⟨((filter_sentinel 1 { status := some "pending" }).1 "pending").mpr
      ⟨rfl, by decide, by decide⟩,
   (filter_sentinel 1 { status := some "all" }).2.2.1 (Or.inr (Or.inr rfl))
      sampleTask1 "completed"⟩

/-- C9: update never reassigns ownership — on a store with unique ids, the
per-task owners are unchanged by any update body (even one carrying a
`user` property), and the returned task keeps the owner of the loaded
task. -/
theorem user_immutable_on_update :
    ∀ (store : List Task) (uid id : Nat) (b : UpdateBody) (now : Nat)
      (store' : List Task) (u : Task),
      (store.map Task.id).Nodup →
      updateTask store uid id b now = .ok (store', u) →
      store'.map Task.user = store.map Task.user ∧
      (∀ task, findById store id = some task → u.user = task.user) := by
  intro store uid id b now store' u hnodup hok
  cases hfind : findById store id with
  | none =>
    rw [updateTask, hfind] at hok
    exact absurd hok (by simp)
  | some task =>
    rw [updateTask, hfind] at hok
    replace hok : (if task.user ≠ uid
        then (Except.error (ApiError.unauthorized "Not authorized to update this task")
          : Except ApiError (List Task × Task))
        else .ok (store.map (fun t => if t.id = id then applyUpdate task b now else t),
          applyUpdate task b now)) = .ok (store', u) := hok
    by_cases howner : task.user = uid
    · rw [if_neg (by simp [howner])] at hok
      simp only [Except.ok.injEq, Prod.mk.injEq] at hok
      obtain ⟨hstore', hu⟩ := hok
      subst hstore' hu
      constructor
      · rw [List.map_map]
        apply List.map_congr_left
        intro t ht
        by_cases hid : t.id = id
        · have ht' : t = task :=
            List.inj_on_of_nodup_map hnodup ht (findById_mem hfind)
              (by rw [hid, findById_id hfind])
          subst ht'
          simp [hid, applyUpdate]
        · simp [hid]
      · intro task' hfind'
        obtain rfl := Option.some.inj hfind'
        rfl
    · rw [if_pos (by simpa using howner)] at hok
      exact absurd hok (by simp)

/-- C9 witness: an update body carrying `user := 42` leaves every owner in
the store unchanged and the returned task owned by user 1. -/
theorem user_immutable_on_update_witness :
    [applyUpdate sampleTask1 { user := some 42 } 500, sampleTask2].map Task.user
        = [sampleTask1, sampleTask2].map Task.user ∧
    (∀ task, findById [sampleTask1, sampleTask2] 1 = some task →
      (applyUpdate sampleTask1 { user := some 42 } 500).user = task.user) :=
  user_immutable_on_update [sampleTask1, sampleTask2] 1 1 { user := some 42 } 500
    [applyUpdate sampleTask1 { user := some 42 } 500, sampleTask2]
    (applyUpdate sampleTask1 { user := some 42 } 500)
    (by decide) rfl

/-- C10: a `page`/`limit` parameter that is absent, non-numeric, or parses
to zero falls back to the defaults 1 and 10; hence the effective limit is
never zero and `totalPages` is computed by a division with a non-zero
divisor for every request. -/
theorem pagination_defaults :
    (∀ d : Int, queryIntOr none d = d) ∧
    (∀ (s : String) (d : Int), jsParseInt s = none → queryIntOr (some s) d = d) ∧
    (∀ (s : String) (d : Int), jsParseInt s = some 0 → queryIntOr (some s) d = d) ∧
    (∀ q : ListQuery, queryIntOr q.limit 10 ≠ 0 ∧ queryIntOr q.page 1 ≠ 0) ∧
    (∀ (store : List Task) (uid : Nat) (q : ListQuery),
      (getTasks store uid q).totalPages
        = jsCeilDiv ((getTasks store uid q).totalTasks) (queryIntOr q.limit 10)) := by
  refine ⟨fun d => rfl, ?_, ?_, ?_, fun store uid q => rfl⟩
  · intro s d h
    simp [queryIntOr, h]
  · intro s d h
    simp [queryIntOr, h]
  · intro q
    exact ⟨queryIntOr_ne_zero q.limit 10 (by decide),
      queryIntOr_ne_zero q.page 1 (by decide)⟩

/-- C10 witness: a non-numeric limit and a zero page fall back to their
defaults; the concrete defaults are non-zero. -/
theorem pagination_defaults_witness :
    queryIntOr (some "abc") 10 = 10 ∧
    queryIntOr (some "0") 1 = 1 ∧
    (queryIntOr ({ limit := some "abc" } : ListQuery).limit 10 ≠ 0 ∧
      queryIntOr ({ limit := some "abc" } : ListQuery).page 1 ≠ 0) :=
  ⟨pagination_defaults.2.1 "abc" 10 rfl,
   pagination_defaults.2.2.1 "0" 1 rfl,
   pagination_defaults.2.2.2.1 { limit := some "abc" }⟩

end TaskApp
